import Mathlib

/-!
Verification development for the realwebapp repository: a shallow embedding
of the persistence layer (`src/db.js`) and of the live-connection event
handlers (`src/server.js`, with the alternative revisions kept under
`src/unnamed/`), together with theorems settling the spec's claims about
likes, presence, private messaging, comments and the feed listing.

The relational store is modelled as lists of rows (one list per table), and
each `db.js` function is translated to a pure function over that state.
Machine-level SQL details (connection pool, escaping) are out of scope; the
semantics of each query is modelled row by row.  The `online_users` table is
modelled with `userId` as its unique key, which is the key the code relies
on (`ON DUPLICATE KEY UPDATE socketId = ?` in `setOnlineStatus`, and the
delete-by-userId upsert of `registerOnlineUser`).
-/

namespace RealWebApp

/-- Row of the `users` table (user_id, username, profile_pic_url). -/
structure UserRow where
  userId : String
  username : String
  profilePicUrl : String
deriving DecidableEq, Repr

/-- Row of the `posts` table.  Some revisions also store the author's
`username` denormalised in the posts table (used by `part_002`'s
`getAllPosts`), so the column is kept here.  `createdAt` abstracts the SQL
`created_at` timestamp as a natural number. -/
structure PostRow where
  id : String
  userId : String
  username : String
  content : String
  mediaUrl : String
  createdAt : Nat
deriving DecidableEq, Repr

/-- Row of the `comments` table (id, post_id, user_id, content, created_at). -/
structure CommentRow where
  id : String
  postId : String
  userId : String
  content : String
  createdAt : Nat
deriving DecidableEq, Repr

/-- Row of the `online_users` table (userId, username, socketId). -/
structure OnlineRow where
  userId : String
  username : String
  socketId : String
deriving DecidableEq, Repr

/-- Row of the `messages` table (sender_id, recipient_id, message_text,
created_at). -/
structure MsgRow where
  senderId : String
  recipientId : String
  message : String
  createdAt : Nat
deriving DecidableEq, Repr

/-- The relational store: one list of rows per table, in insertion order,
plus a clock supplying the `created_at` timestamps assigned by the
database (`NOW()` / default timestamps). -/
structure Db where
  users : List UserRow
  posts : List PostRow
  comments : List CommentRow
  likes : List (String × String)
  online : List OnlineRow
  msgs : List MsgRow
  clock : Nat
deriving DecidableEq, Repr

/-- The empty database. -/
def emptyDb : Db := ⟨[], [], [], [], [], [], 0⟩

/-! ### Likes (src/db.js `getLike`, `addLike`, `removeLike`, `getLikeCount`) -/

/-- Embeds `getLike`: `SELECT 1 FROM likes WHERE post_id = ? AND user_id = ?`,
returning the first matching row (`rows[0]`) or nothing. -/
def getLike (db : Db) (postId userId : String) : Option (String × String) :=
  (db.likes.filter (fun r => r.1 == postId && r.2 == userId)).head?

/-- Embeds `addLike`: `INSERT INTO likes (post_id, user_id) VALUES (?, ?)`. -/
def addLike (db : Db) (postId userId : String) : Db :=
  { db with likes := db.likes ++ [(postId, userId)] }

/-- Embeds `removeLike`: `DELETE FROM likes WHERE post_id = ? AND user_id = ?`. -/
def removeLike (db : Db) (postId userId : String) : Db :=
  { db with likes := db.likes.filter (fun r => !(r.1 == postId && r.2 == userId)) }

/-- Embeds `getLikeCount`: `SELECT COUNT(*) FROM likes WHERE post_id = ?`. -/
def getLikeCount (db : Db) (postId : String) : Nat :=
  (db.likes.filter (fun r => r.1 == postId)).length

/-! ### Online users (src/db.js) -/

/-- Embeds `setOnlineStatus`: `INSERT INTO online_users (userId, username,
socketId) VALUES (?, ?, ?) ON DUPLICATE KEY UPDATE socketId = ?`.  With
`userId` as the unique key this updates the `socketId` of the existing row
for that user (leaving `username` as stored), otherwise it inserts a new
row. -/
def setOnlineStatus (db : Db) (userId username socketId : String) : Db :=
  if db.online.any (fun r => r.userId == userId) then
    let upd := fun (r : OnlineRow) =>
      if r.userId == userId then { r with socketId := socketId } else r
    { db with online := db.online.map upd }
  else
    { db with online := db.online ++ [⟨userId, username, socketId⟩] }

/-- Embeds `registerOnlineUser` (src/unnamed/part_002): delete any row for
the user, then insert the new binding. -/
def registerOnlineUser (db : Db) (userId username socketId : String) : Db :=
  let db1 := { db with online := db.online.filter (fun r => !(r.userId == userId)) }
  { db1 with online := db1.online ++ [⟨userId, username, socketId⟩] }

/-- Embeds `removeOnlineStatusBySocketId`:
`DELETE FROM online_users WHERE socketId = ?`. -/
def removeOnlineStatusBySocketId (db : Db) (socketId : String) : Db :=
  { db with online := db.online.filter (fun r => !(r.socketId == socketId)) }

/-- Embeds `removeOnlineStatusByUserId`:
`DELETE FROM online_users WHERE userId = ?`. -/
def removeOnlineStatusByUserId (db : Db) (userId : String) : Db :=
  { db with online := db.online.filter (fun r => !(r.userId == userId)) }

/-- Embeds `getOnlineUsers` (src/db.js):
`SELECT userId, username, socketId FROM online_users` — note that the
selected rows include the `socketId`. -/
def getOnlineUsers (db : Db) : List OnlineRow :=
  db.online

/-- Embeds `getRecipientSocketId`: `SELECT socketId FROM online_users WHERE
userId = ?`, returning `rows[0].socketId` or nothing. -/
def getRecipientSocketId (db : Db) (recipientId : String) : Option String :=
  ((db.online.filter (fun r => r.userId == recipientId)).head?).map (fun r => r.socketId)

/-! ### Private messages (src/db.js `savePrivateMessage`, `getChatHistory`) -/

/-- Embeds `savePrivateMessage`: `INSERT INTO messages (sender_id,
recipient_id, message_text) VALUES (?, ?, ?)`; the database assigns
`created_at` from its clock. -/
def savePrivateMessage (db : Db) (senderId recipientId message : String) : Db :=
  { db with msgs := db.msgs ++ [⟨senderId, recipientId, message, db.clock⟩],
            clock := db.clock + 1 }

/-- Embeds `getChatHistory`: selects the messages where
`(sender_id = a AND recipient_id = b) OR (sender_id = b AND recipient_id = a)`,
`ORDER BY created_at ASC` (rows are stored in insertion order, which is
ascending `created_at` for any database built through this interface). -/
def getChatHistory (db : Db) (a b : String) : List MsgRow :=
  db.msgs.filter (fun m =>
    (m.senderId == a && m.recipientId == b) || (m.senderId == b && m.recipientId == a))

/-! ### Comments (src/db.js `createComment`, `getCommentsByPostId`) -/

/-- Embeds `createComment`: `INSERT INTO comments (id, post_id, user_id,
content) VALUES (?, ?, ?, ?)` — no username or profile picture is stored. -/
def createComment (db : Db) (commentId postId userId content : String) : Db :=
  { db with comments := db.comments ++ [⟨commentId, postId, userId, content, db.clock⟩],
            clock := db.clock + 1 }

/-- Result row of `getCommentsByPostId`: comment columns joined with the
author's current `username` and `profile_pic_url` from the users table. -/
structure CommentView where
  id : String
  postId : String
  userId : String
  content : String
  createdAt : Nat
  username : String
  profilePicUrl : String
deriving DecidableEq, Repr

/-- Embeds `getCommentsByPostId`: `SELECT c..., u.username, u.profile_pic_url
FROM comments c JOIN users u ON c.user_id = u.user_id WHERE c.post_id = ?
ORDER BY c.created_at ASC` — the author's name and image are resolved by a
join at fetch time. -/
def getCommentsByPostId (db : Db) (postId : String) : List CommentView :=
  (db.comments.filter (fun c => c.postId == postId)).filterMap (fun c =>
    (db.users.find? (fun u => u.userId == c.userId)).map (fun u =>
      ⟨c.id, c.postId, c.userId, c.content, c.createdAt, u.username, u.profilePicUrl⟩))

/-! ### Feed listing (src/db.js `getAllPosts` and the uncapped revision in
src/unnamed/part_002) -/

/-- Result row of the `src/db.js` `getAllPosts` query: post columns joined
with the author's current `username`/`profile_pic_url` and the aggregate
`likesCount`. -/
structure PostView where
  id : String
  userId : String
  content : String
  mediaUrl : String
  createdAt : Nat
  username : String
  profilePicUrl : String
  likesCount : Nat
deriving DecidableEq, Repr

/-- Descending order on `created_at` (`ORDER BY p.created_at DESC`). -/
def postLater (a b : PostView) : Prop :=
  b.createdAt ≤ a.createdAt

instance : DecidableRel postLater := fun a b => Nat.decLe b.createdAt a.createdAt

instance : IsTotal PostView postLater :=
  ⟨fun a b => (Nat.le_total b.createdAt a.createdAt).imp id id⟩

instance : IsTrans PostView postLater :=
  ⟨fun _ _ _ h h' => Nat.le_trans h' h⟩

/-- The join underlying `getAllPosts`: `FROM posts p JOIN users u ON
p.user_id = u.user_id` with the aggregate `likesCount` per post (posts
without a matching user row are dropped by the inner join). -/
def postsJoined (db : Db) : List PostView :=
  db.posts.filterMap (fun p =>
    (db.users.find? (fun u => u.userId == p.userId)).map (fun u =>
      ⟨p.id, p.userId, p.content, p.mediaUrl, p.createdAt,
       u.username, u.profilePicUrl, getLikeCount db p.id⟩))

/-- Embeds `getAllPosts` (src/db.js): the joined rows, `ORDER BY
p.created_at DESC LIMIT 20`. -/
def getAllPosts (db : Db) : List PostView :=
  (List.insertionSort postLater (postsJoined db)).take 20

/-- Result row of the `src/unnamed/part_002` `getAllPosts` query: the
username comes from the posts table itself (`p.username`), the profile
picture from the users join, and `likeCount` from a correlated subquery. -/
structure P2PostView where
  postId : String
  userId : String
  username : String
  content : String
  mediaUrl : String
  timestamp : Nat
  likeCount : Nat
  profilePicUrl : String
deriving DecidableEq, Repr

/-- Descending order on the `part_002` view's timestamp. -/
def p2Later (a b : P2PostView) : Prop :=
  b.timestamp ≤ a.timestamp

instance : DecidableRel p2Later := fun a b => Nat.decLe b.timestamp a.timestamp

instance : IsTotal P2PostView p2Later :=
  ⟨fun a b => (Nat.le_total b.timestamp a.timestamp).imp id id⟩

instance : IsTrans P2PostView p2Later :=
  ⟨fun _ _ _ h h' => Nat.le_trans h' h⟩

/-- The join underlying `part_002`'s `getAllPosts`. -/
def postsJoinedP2 (db : Db) : List P2PostView :=
  db.posts.filterMap (fun p =>
    (db.users.find? (fun u => u.userId == p.userId)).map (fun u =>
      ⟨p.id, p.userId, p.username, p.content, p.mediaUrl, p.createdAt,
       getLikeCount db p.id, u.profilePicUrl⟩))

/-- Embeds `getAllPosts` from src/unnamed/part_002: `ORDER BY p.created_at
DESC` with no `LIMIT` clause. -/
def getAllPostsP002 (db : Db) : List P2PostView :=
  List.insertionSort p2Later (postsJoinedP2 db)

/-! ### Events and handler traces (src/server.js)

Each socket/HTTP handler is modelled as a pure function from the database
state (plus the per-connection session, i.e. the `socket.userId` binding)
to the new state together with a trace of its observable actions: the
persistence calls it issued (with a success flag) and the events it
emitted.  A fault schedule `f : Nat → Bool` says whether the n-th
persistence call of one handler invocation raises; a raised error aborts
the remaining steps of the handler body and is swallowed by the handler's
`catch` block, exactly as in the JavaScript `try`/`catch` structure. -/

/-- Outbound wire events of the server revisions under verification. -/
inductive Event where
  | likeUpdate (postId : String) (newCount : Nat)
  | onlineUsers (payload : List (String × String))
  | onlineUsersRaw (payload : List OnlineRow)
  | newPrivateMessage (senderId recipientId message : String) (timestamp : Nat)
  | commentUpdate (id postId userId username content profilePicUrl : String)
      (createdAt : Nat)
deriving DecidableEq, Repr

/-- One observable action of a handler: a persistence call (with its
success flag) or an emitted event (`io.emit`, `io.to(sid).emit`, or
`socket.emit`). -/
inductive Action where
  | dbCall (name : String) (ok : Bool)
  | emitAll (e : Event)
  | emitToSocket (socketId : String) (e : Event)
  | emitSelf (e : Event)
deriving DecidableEq, Repr

/-- Whether an action is an emitted event (of any kind). -/
def Action.isEmit : Action → Bool
  | .dbCall _ _ => false
  | _ => true

/-- Whether an action is a persistence call that raised. -/
def Action.isFailedCall : Action → Bool
  | .dbCall _ ok => !ok
  | _ => false

/-- The events broadcast to all connections (`io.emit`) in a trace. -/
def broadcastEvents (tr : List Action) : List Event :=
  tr.filterMap (fun a => match a with | .emitAll e => some e | _ => none)

/-- The fault schedule on which every persistence call succeeds. -/
def noFail : Nat → Bool := fun _ => false

/-- The fault schedule on which exactly the k-th persistence call raises. -/
def failAt (k : Nat) : Nat → Bool := fun i => i == k

/-- Embeds the `broadcastOnlineUsers` helper's payload (src/server.js lines
38-44): the rows of `getOnlineUsers` projected to `{ userId, username }`,
explicitly excluding the `socketId`. -/
def onlineUsersPayload (db : Db) : List (String × String) :=
  (getOnlineUsers db).map (fun u => (u.userId, u.username))

/-- Embeds the `socket.on('likePost')` handler (src/server.js lines
306-324): read the like membership, toggle it (delete if present, insert if
absent), re-query the aggregate count, and broadcast `likeUpdate` with the
fresh count; any error is caught and nothing is emitted. -/
def likePostH (f : Nat → Bool) (db : Db) (postId userId : String) :
    Db × List Action :=
  if f 0 then (db, [.dbCall "getLike" false]) else
  let row := getLike db postId userId
  let toggleName := if row.isSome then "removeLike" else "addLike"
  if f 1 then (db, [.dbCall "getLike" true, .dbCall toggleName false]) else
  let db1 := if row.isSome then removeLike db postId userId else addLike db postId userId
  if f 2 then
    (db1, [.dbCall "getLike" true, .dbCall toggleName true, .dbCall "getLikeCount" false])
  else
    (db1, [.dbCall "getLike" true, .dbCall toggleName true, .dbCall "getLikeCount" true,
           .emitAll (.likeUpdate postId (getLikeCount db1 postId))])

/-- Embeds the `socket.on('privateMessage')` handler (src/server.js lines
268-300): validate, persist via `savePrivateMessage`, resolve the
recipient's socket, deliver point-to-point if resolved, and always echo to
the sender; any error is caught and the remaining steps are skipped.
`now` abstracts `new Date().toISOString()`. -/
def privateMessageH (f : Nat → Bool) (db : Db) (now : Nat)
    (senderId recipientId message : String) : Db × List Action :=
  if senderId == "" || recipientId == "" || message == "" then (db, []) else
  if f 0 then (db, [.dbCall "savePrivateMessage" false]) else
  let db1 := savePrivateMessage db senderId recipientId message
  if f 1 then
    (db1, [.dbCall "savePrivateMessage" true, .dbCall "getRecipientSocketId" false])
  else
    let fullMsg := Event.newPrivateMessage senderId recipientId message now
    match getRecipientSocketId db1 recipientId with
    | some sid =>
        (db1, [.dbCall "savePrivateMessage" true, .dbCall "getRecipientSocketId" true,
               .emitToSocket sid fullMsg, .emitSelf fullMsg])
    | none =>
        (db1, [.dbCall "savePrivateMessage" true, .dbCall "getRecipientSocketId" true,
               .emitSelf fullMsg])

/-- Embeds the `socket.on('userOnline')` handler (src/server.js lines
225-239): validate, upsert the presence row, bind `socket.userId`, then
broadcast the online list; errors are caught. -/
def userOnlineH (f : Nat → Bool) (db : Db) (sess : Option String)
    (sid userId username : String) : Db × Option String × List Action :=
  if userId == "" || username == "" then (db, sess, []) else
  if f 0 then (db, sess, [.dbCall "setOnlineStatus" false]) else
  let db1 := setOnlineStatus db userId username sid
  if f 1 then
    (db1, some userId, [.dbCall "setOnlineStatus" true, .dbCall "getOnlineUsers" false])
  else
    (db1, some userId,
     [.dbCall "setOnlineStatus" true, .dbCall "getOnlineUsers" true,
      .emitAll (.onlineUsers (onlineUsersPayload db1))])

/-- Embeds the `socket.on('userOffline')` handler (src/server.js lines
241-251): validate, delete the presence rows for the user, clear
`socket.userId`, then broadcast the online list; errors are caught. -/
def userOfflineH (f : Nat → Bool) (db : Db) (sess : Option String)
    (userId : String) : Db × Option String × List Action :=
  if userId == "" then (db, sess, []) else
  if f 0 then (db, sess, [.dbCall "removeOnlineStatusByUserId" false]) else
  let db1 := removeOnlineStatusByUserId db userId
  if f 1 then
    (db1, none,
     [.dbCall "removeOnlineStatusByUserId" true, .dbCall "getOnlineUsers" false])
  else
    (db1, none,
     [.dbCall "removeOnlineStatusByUserId" true, .dbCall "getOnlineUsers" true,
      .emitAll (.onlineUsers (onlineUsersPayload db1))])

/-- Embeds the `socket.on('disconnect')` handler (src/server.js lines
253-264): if the session carries a `socket.userId`, delete the presence row
for this socket and broadcast the online list; `socket.userId` is not
cleared.  Errors are caught. -/
def disconnectH (f : Nat → Bool) (db : Db) (sess : Option String)
    (sid : String) : Db × Option String × List Action :=
  match sess with
  | none => (db, none, [])
  | some u =>
    if f 0 then (db, some u, [.dbCall "removeOnlineStatusBySocketId" false]) else
    let db1 := removeOnlineStatusBySocketId db sid
    if f 1 then
      (db1, some u,
       [.dbCall "removeOnlineStatusBySocketId" true, .dbCall "getOnlineUsers" false])
    else
      (db1, some u,
       [.dbCall "removeOnlineStatusBySocketId" true, .dbCall "getOnlineUsers" true,
        .emitAll (.onlineUsers (onlineUsersPayload db1))])

/-- Embeds the `app.post('/api/comment')` route (src/server.js lines
159-184): validate, persist the comment (ids and content only), then
broadcast `commentUpdate` built from the request body's `username` and
`profilePicUrl` — the values supplied by the client, not a lookup of the
users table. -/
def apiCommentH (f : Nat → Bool) (db : Db)
    (commentId postId userId content username profilePicUrl : String) :
    Db × List Action :=
  if postId == "" || userId == "" || content == "" then (db, []) else
  if f 0 then (db, [.dbCall "createComment" false]) else
  let db1 := createComment db commentId postId userId content
  (db1, [.dbCall "createComment" true,
         .emitAll (.commentUpdate commentId postId userId username content
           profilePicUrl db.clock)])

/-- Embeds the `io.on('connection')` online-list emit of the session-based
revision (src/unnamed/part_001 lines 582-587): after `setOnlineStatus`, the
rows returned by `getOnlineUsers` are emitted as the `onlineUsers` payload
without any projection — including their `socketId` column. -/
def part001ConnectionOnlineEmit (db : Db) (userId username socketId : String) :
    List OnlineRow :=
  getOnlineUsers (setOnlineStatus db userId username socketId)

/-- Sequential processing of `n` `likePost` toggle events for the same
`(postId, userId)` pair, concatenating the traces. -/
def runLikePosts : Nat → Db → String → String → Db × List Action
  | 0, db, _, _ => (db, [])
  | n + 1, db, p, u =>
      let r1 := likePostH noFail db p u
      let r2 := runLikePosts n r1.1 p u
      (r2.1, r1.2 ++ r2.2)

/-! ### Claim C1: like toggling -/

/-- Number of `likes` rows for the exact `(postId, userId)` pair. -/
def cntPU (db : Db) (p u : String) : Nat :=
  (db.likes.filter (fun r => r.1 == p && r.2 == u)).length

/-- Number of `likes` rows for the post held by other users. -/
def othersCount (db : Db) (p u : String) : Nat :=
  (db.likes.filter (fun r => r.1 == p && !(r.2 == u))).length

lemma filter_len_split (l : List (String × String)) (p u : String) :
    (l.filter (fun r => r.1 == p)).length
      = (l.filter (fun r => r.1 == p && r.2 == u)).length
        + (l.filter (fun r => r.1 == p && !(r.2 == u))).length := by
  induction l with
  | nil => rfl
  | cons a t ih =>
      by_cases h1 : (a.1 == p) = true <;> by_cases h2 : (a.2 == u) = true <;>
        simp [List.filter_cons, h1, h2] <;> omega

lemma getLikeCount_split (db : Db) (p u : String) :
    getLikeCount db p = cntPU db p u + othersCount db p u :=
  filter_len_split db.likes p u

lemma filter_not_self {α : Type} (l : List α) (pred : α → Bool) :
    (l.filter (fun r => !(pred r))).filter pred = [] := by
  induction l with
  | nil => rfl
  | cons a t ih => by_cases h : pred a = true <;> simp [List.filter_cons, h, ih]

lemma filter_of_filter_stronger {α : Type} (l : List α) (A B : α → Bool)
    (h : ∀ r, A r = true → B r = true) :
    (l.filter B).filter A = l.filter A := by
  induction l with
  | nil => rfl
  | cons a t ih =>
      by_cases hB : B a = true
      · by_cases hA : A a = true <;> simp [List.filter_cons, hA, hB, ih]
      · have hA : A a = false := by
          cases hA' : A a with
          | false => rfl
          | true => exact absurd (h a hA') (by simp [hB])
        simp [List.filter_cons, hA, hB, ih]

lemma cntPU_addLike (db : Db) (p u : String) :
    cntPU (addLike db p u) p u = cntPU db p u + 1 := by
  simp [cntPU, addLike, List.filter_append]

lemma othersCount_addLike (db : Db) (p u : String) :
    othersCount (addLike db p u) p u = othersCount db p u := by
  simp [othersCount, addLike, List.filter_append]

lemma cntPU_removeLike (db : Db) (p u : String) :
    cntPU (removeLike db p u) p u = 0 := by
  simp only [cntPU, removeLike]
  rw [filter_not_self]
  rfl

lemma othersCount_removeLike (db : Db) (p u : String) :
    othersCount (removeLike db p u) p u = othersCount db p u := by
  simp only [othersCount, removeLike]
  rw [filter_of_filter_stronger]
  intro r hr
  simp only [Bool.and_eq_true, Bool.not_eq_true'] at hr ⊢
  simp [hr.1, hr.2]

lemma mem_likes_iff_cntPU_pos (db : Db) (p u : String) :
    (p, u) ∈ db.likes ↔ 0 < cntPU db p u := by
  simp only [cntPU]
  induction db.likes with
  | nil => simp
  | cons a t ih =>
      by_cases h : (a.1 == p && a.2 == u) = true
      · have : a = (p, u) := by
          simp only [Bool.and_eq_true, beq_iff_eq] at h
          exact Prod.ext h.1 h.2
        simp [List.filter_cons, h, this]
      · have hne : (p, u) ≠ a := by
          intro hEq
          apply h
          rw [← hEq]
          simp
        simp [List.filter_cons, h, ih, hne]

lemma getLike_isSome_iff (db : Db) (p u : String) :
    (getLike db p u).isSome = true ↔ 0 < cntPU db p u := by
  unfold getLike cntPU
  cases h : db.likes.filter (fun r => r.1 == p && r.2 == u) <;> simp [h]

lemma likePostH_noFail_eq (db : Db) (p u : String) :
    likePostH noFail db p u
      = (if (getLike db p u).isSome then removeLike db p u else addLike db p u,
         [.dbCall "getLike" true,
          .dbCall (if (getLike db p u).isSome then "removeLike" else "addLike") true,
          .dbCall "getLikeCount" true,
          .emitAll (.likeUpdate p (getLikeCount
            (if (getLike db p u).isSome then removeLike db p u else addLike db p u) p))]) := by
  simp [likePostH, noFail]

lemma runLikePosts_spec (p u : String) :
    ∀ (n : Nat) (db : Db), cntPU db p u ≤ 1 →
      cntPU (runLikePosts n db p u).1 p u = (cntPU db p u + n) % 2
      ∧ othersCount (runLikePosts n db p u).1 p u = othersCount db p u
      ∧ broadcastEvents (runLikePosts n db p u).2
          = (List.range n).map (fun i =>
              Event.likeUpdate p (othersCount db p u + (cntPU db p u + i + 1) % 2)) := by
  intro n
  induction n with
  | zero =>
      intro db h
      refine ⟨?_, rfl, rfl⟩
      simp only [runLikePosts]
      omega
  | succ n ih =>
      intro db h
      have hstep := likePostH_noFail_eq db p u
      by_cases hc : cntPU db p u = 0
      · have hnone : (getLike db p u).isSome = false := by
          cases hs : (getLike db p u).isSome with
          | false => rfl
          | true => exact absurd ((getLike_isSome_iff db p u).mp hs) (by omega)
        have hdb1 : (likePostH noFail db p u).1 = addLike db p u := by
          rw [hstep]; simp [hnone]
        have hcnt1 : cntPU (addLike db p u) p u = 1 := by
          rw [cntPU_addLike, hc]
        have ihs := ih (addLike db p u) (by omega)
        refine ⟨?_, ?_, ?_⟩
        · show cntPU (runLikePosts (n + 1) db p u).1 p u = (cntPU db p u + (n + 1)) % 2
          simp only [runLikePosts, hdb1]
          rw [ihs.1, hcnt1, hc]
          omega
        · show othersCount (runLikePosts (n + 1) db p u).1 p u = othersCount db p u
          simp only [runLikePosts, hdb1]
          rw [ihs.2.1, othersCount_addLike]
        · show broadcastEvents (runLikePosts (n + 1) db p u).2 = _
          simp only [runLikePosts, hdb1]
          have hcount : getLikeCount (addLike db p u) p = othersCount db p u + 1 := by
            rw [getLikeCount_split (addLike db p u) p u, cntPU_addLike,
              othersCount_addLike, hc]
            omega
          have htr : broadcastEvents (likePostH noFail db p u).2
              = [Event.likeUpdate p (othersCount db p u + 1)] := by
            rw [hstep]
            simp [broadcastEvents, hnone, hcount]
          rw [broadcastEvents, List.filterMap_append, ← broadcastEvents, ← broadcastEvents,
            htr, ihs.2.2, othersCount_addLike, hcnt1, hc,
            List.range_succ_eq_map, List.map_cons, List.map_map]
          refine List.cons_eq_cons.mpr ⟨by norm_num, ?_⟩
          apply List.map_congr_left
          intro i _
          simp only [Function.comp]
          congr 1
          omega
      · have hc1 : cntPU db p u = 1 := by omega
        have hsome : (getLike db p u).isSome = true :=
          (getLike_isSome_iff db p u).mpr (by omega)
        have hdb1 : (likePostH noFail db p u).1 = removeLike db p u := by
          rw [hstep]; simp [hsome]
        have hcnt1 : cntPU (removeLike db p u) p u = 0 := cntPU_removeLike db p u
        have ihs := ih (removeLike db p u) (by omega)
        refine ⟨?_, ?_, ?_⟩
        · show cntPU (runLikePosts (n + 1) db p u).1 p u = (cntPU db p u + (n + 1)) % 2
          simp only [runLikePosts, hdb1]
          rw [ihs.1, hcnt1, hc1]
          omega
        · show othersCount (runLikePosts (n + 1) db p u).1 p u = othersCount db p u
          simp only [runLikePosts, hdb1]
          rw [ihs.2.1, othersCount_removeLike]
        · show broadcastEvents (runLikePosts (n + 1) db p u).2 = _
          simp only [runLikePosts, hdb1]
          have hcount : getLikeCount (removeLike db p u) p = othersCount db p u := by
            rw [getLikeCount_split (removeLike db p u) p u, cntPU_removeLike,
              othersCount_removeLike]
            omega
          have htr : broadcastEvents (likePostH noFail db p u).2
              = [Event.likeUpdate p (othersCount db p u)] := by
            rw [hstep]
            simp [broadcastEvents, hsome, hcount]
          rw [broadcastEvents, List.filterMap_append, ← broadcastEvents, ← broadcastEvents,
            htr, ihs.2.2, othersCount_removeLike, hcnt1, hc1,
            List.range_succ_eq_map, List.map_cons, List.map_map]
          refine List.cons_eq_cons.mpr ⟨by norm_num, ?_⟩
          apply List.map_congr_left
          intro i _
          simp only [Function.comp]
          congr 1
          omega

/-- C1: starting from a state in which `(postId, userId)` is not a Like
member, sequentially processing `n` like-toggle events leaves the pair a
member iff `n` is odd; the `likeUpdate` broadcasts carry exactly the counts
`getLikeCount db p + 1, getLikeCount db p, …` alternating with the toggles,
and the `i`-th broadcast's count equals the fresh aggregate `COUNT` query
on the database state as it stands after that toggle, not an incrementally
maintained counter. -/
theorem likePost_toggle_parity_fresh_count (n : Nat) (db : Db) (p u : String)
    (h : (p, u) ∉ db.likes) :
    ((p, u) ∈ (runLikePosts n db p u).1.likes ↔ Odd n)
    ∧ broadcastEvents (runLikePosts n db p u).2
        = (List.range n).map (fun i =>
            Event.likeUpdate p (getLikeCount db p + (i + 1) % 2))
    ∧ (∀ i, i < n →
        (broadcastEvents (runLikePosts n db p u).2)[i]?
          = some (Event.likeUpdate p
              (getLikeCount (runLikePosts (i + 1) db p u).1 p))) := by
  have hc : cntPU db p u = 0 := by
    rcases Nat.eq_zero_or_pos (cntPU db p u) with h0 | h0
    · exact h0
    · exact absurd ((mem_likes_iff_cntPU_pos db p u).mpr h0) h
  have spec := runLikePosts_spec p u n db (by omega)
  have hclosed : broadcastEvents (runLikePosts n db p u).2
      = (List.range n).map (fun i =>
          Event.likeUpdate p (getLikeCount db p + (i + 1) % 2)) := by
    rw [spec.2.2]
    apply List.map_congr_left
    intro i _
    rw [getLikeCount_split db p u, hc]
    congr 1
    omega
  refine ⟨?_, hclosed, ?_⟩
  · rw [mem_likes_iff_cntPU_pos, spec.1, hc, Nat.odd_iff]
    omega
  · intro i hi
    have speci := runLikePosts_spec p u (i + 1) db (by omega)
    rw [hclosed, List.getElem?_map, List.getElem?_range hi, Option.map,
      getLikeCount_split (runLikePosts (i + 1) db p u).1 p u, speci.1, speci.2.1,
      getLikeCount_split db p u, hc]
    congr 2
    omega

/-- Witness for C1 at a concrete input: three toggles on an initially
absent pair leave it present, and the broadcasts carry 1, 0, 1. -/
theorem likePost_toggle_parity_fresh_count_witness :
    ("p1", "u1") ∉ emptyDb.likes
    ∧ ((("p1", "u1") ∈ (runLikePosts 3 emptyDb "p1" "u1").1.likes) ↔ Odd 3)
    ∧ broadcastEvents (runLikePosts 3 emptyDb "p1" "u1").2
        = [.likeUpdate "p1" 1, .likeUpdate "p1" 0, .likeUpdate "p1" 1] := by
  have h : ("p1", "u1") ∉ emptyDb.likes := by decide
  refine ⟨h, (likePost_toggle_parity_fresh_count 3 emptyDb "p1" "u1" h).1, by decide⟩

/-! ### Claims C2 and C5: private messaging -/

/-- Whether an action is a point-to-point delivery (`io.to(sid).emit`). -/
def Action.isEmitToSocket : Action → Bool
  | .emitToSocket _ _ => true
  | _ => false

/-- C2: in the `privateMessage` handler, the very first action is the
`savePrivateMessage` persistence call — it precedes the recipient-socket
resolution and every emitted event — and every emitted event implies that
this call succeeded; if it fails, the handler stops with that single failed
call, emitting nothing and leaving the store unchanged. -/
theorem privateMessage_persist_before_delivery (f : Nat → Bool) (db : Db)
    (now : Nat) (s r m : String) (hs : s ≠ "") (hr : r ≠ "") (hm : m ≠ "") :
    (privateMessageH f db now s r m).2.head?
        = some (.dbCall "savePrivateMessage" (!f 0))
    ∧ (∀ a ∈ (privateMessageH f db now s r m).2, a.isEmit = true → f 0 = false)
    ∧ (f 0 = true →
        (privateMessageH f db now s r m).2 = [.dbCall "savePrivateMessage" false]
        ∧ (privateMessageH f db now s r m).1 = db) := by
  have hbs : (s == "") = false := by simp [hs]
  have hbr : (r == "") = false := by simp [hr]
  have hbm : (m == "") = false := by simp [hm]
  unfold privateMessageH
  simp only [hbs, hbr, hbm, Bool.or_self, Bool.or_false, Bool.false_or, if_false,
    Bool.false_eq_true]
  by_cases h0 : f 0 = true
  · simp [h0, Action.isEmit]
  · have hf0 : f 0 = false := Bool.of_not_eq_true h0
    simp only [hf0, Bool.false_eq_true, if_false, Bool.not_false]
    by_cases h1 : f 1 = true
    · simp [h1, Action.isEmit]
    · have hf1 : f 1 = false := Bool.of_not_eq_true h1
      simp only [hf1, Bool.false_eq_true, if_false]
      cases hsid : getRecipientSocketId (savePrivateMessage db s r m) r <;>
        simp [Action.isEmit]

/-- Witness for C2 at a concrete input on the all-fail schedule: the trace
is the single failed persistence call and the store is unchanged. -/
theorem privateMessage_persist_before_delivery_witness :
    (privateMessageH (fun _ => true) emptyDb 0 "u1" "u2" "hi").2
        = [.dbCall "savePrivateMessage" false]
    ∧ (privateMessageH (fun _ => true) emptyDb 0 "u1" "u2" "hi").1 = emptyDb :=
  (privateMessage_persist_before_delivery (fun _ => true) emptyDb 0 "u1" "u2" "hi"
    (by decide) (by decide) (by decide)).2.2 rfl

/-- C5: when persistence succeeds and the recipient has no live connection,
the handler performs no point-to-point delivery, still echoes the message
event to the sender's own connection, and a subsequent `getChatHistory`
between sender and recipient contains the stored message. -/
theorem privateMessage_offline_recipient (db : Db) (now : Nat) (s r m : String)
    (hs : s ≠ "") (hr : r ≠ "") (hm : m ≠ "")
    (hoff : getRecipientSocketId db r = none) :
    (privateMessageH noFail db now s r m).2.all (fun a => !a.isEmitToSocket) = true
    ∧ Action.emitSelf (.newPrivateMessage s r m now)
        ∈ (privateMessageH noFail db now s r m).2
    ∧ (⟨s, r, m, db.clock⟩ : MsgRow)
        ∈ getChatHistory (privateMessageH noFail db now s r m).1 s r := by
  have hbs : (s == "") = false := by simp [hs]
  have hbr : (r == "") = false := by simp [hr]
  have hbm : (m == "") = false := by simp [hm]
  have hoff' : getRecipientSocketId (savePrivateMessage db s r m) r = none := hoff
  unfold privateMessageH
  simp only [hbs, hbr, hbm, Bool.or_self, Bool.or_false, Bool.false_or, noFail,
    Bool.false_eq_true, if_false, hoff']
  refine ⟨by simp [Action.isEmitToSocket], by simp, ?_⟩
  simp [getChatHistory, savePrivateMessage, List.mem_filter]

/-- Witness for C5 at a concrete input: the sender's echo is emitted and the
message is in the fetched history. -/
theorem privateMessage_offline_recipient_witness :
    Action.emitSelf (.newPrivateMessage "u1" "u2" "hi" 7)
        ∈ (privateMessageH noFail emptyDb 7 "u1" "u2" "hi").2
    ∧ (⟨"u1", "u2", "hi", 0⟩ : MsgRow)
        ∈ getChatHistory (privateMessageH noFail emptyDb 7 "u1" "u2" "hi").1 "u1" "u2" :=
  (privateMessage_offline_recipient emptyDb 7 "u1" "u2" "hi"
    (by decide) (by decide) (by decide) (by decide)).2

/-! ### Claim C3: presence replace-by-userId -/

lemma filter_userId_map_upd (l : List OnlineRow) (u s : String) :
    (l.map (fun r => if r.userId == u then { r with socketId := s } else r)).filter
        (fun r => r.userId == u)
      = (l.filter (fun r => r.userId == u)).map (fun r => { r with socketId := s }) := by
  induction l with
  | nil => rfl
  | cons a t ih =>
      by_cases h : a.userId = u
      · simpa [List.filter_cons, h] using ih
      · simpa [List.filter_cons, h] using ih

lemma setOnlineStatus_filter (db : Db) (u n c : String)
    (h : (db.online.filter (fun r => r.userId == u)).length ≤ 1) :
    ∃ nm, (setOnlineStatus db u n c).online.filter (fun r => r.userId == u)
        = [⟨u, nm, c⟩] := by
  by_cases hany : db.online.any (fun r => r.userId == u) = true
  · have honline : (setOnlineStatus db u n c).online
        = db.online.map (fun r => if r.userId == u then { r with socketId := c } else r) := by
      simp [setOnlineStatus, hany]
    rw [honline, filter_userId_map_upd]
    have hne : db.online.filter (fun r => r.userId == u) ≠ [] := by
      rcases List.any_eq_true.mp hany with ⟨r, hrmem, hru⟩
      intro hnil
      have hmem : r ∈ db.online.filter (fun r => r.userId == u) :=
        List.mem_filter.mpr ⟨hrmem, hru⟩
      rw [hnil] at hmem
      simp at hmem
    obtain ⟨r, rest, hr⟩ := List.exists_cons_of_ne_nil hne
    have hrest : rest = [] := by
      rw [hr] at h
      simp only [List.length_cons] at h
      exact List.eq_nil_of_length_eq_zero (by omega)
    have hru : r.userId = u := by
      have hmem : r ∈ db.online.filter (fun x => x.userId == u) := by
        rw [hr, hrest]
        simp
      exact beq_iff_eq.mp (List.mem_filter.mp hmem).2
    refine ⟨r.username, ?_⟩
    rw [hr, hrest]
    simp only [List.map_cons, List.map_nil]
    rw [show ({ r with socketId := c } : OnlineRow) = ⟨r.userId, r.username, c⟩ from rfl, hru]
  · have hf : db.online.any (fun r => r.userId == u) = false := Bool.of_not_eq_true hany
    have honline : (setOnlineStatus db u n c).online = db.online ++ [⟨u, n, c⟩] := by
      simp [setOnlineStatus, hf]
    have hnone : db.online.filter (fun r => r.userId == u) = [] := by
      rw [List.filter_eq_nil_iff]
      intro r hrmem hru
      have htrue : db.online.any (fun x => x.userId == u) = true :=
        List.any_eq_true.mpr ⟨r, hrmem, hru⟩
      rw [hf] at htrue
      cases htrue
    refine ⟨n, ?_⟩
    rw [honline, List.filter_append, hnone]
    simp

/-- C3: the presence upsert follows replace-by-userId in both revisions.
After `setOnlineStatus u name c1` then `setOnlineStatus u name c2`
(src/db.js, `ON DUPLICATE KEY UPDATE socketId` with `userId` as the unique
key), and likewise after two `registerOnlineUser` calls (src/unnamed/
part_002, delete-then-insert), `getRecipientSocketId u` resolves to `c2`
and the online table has exactly one row for `u`. -/
theorem presence_replace_by_userId (db : Db) (u n1 n2 c1 c2 : String)
    (h : (db.online.filter (fun r => r.userId == u)).length ≤ 1) :
    getRecipientSocketId (setOnlineStatus (setOnlineStatus db u n1 c1) u n2 c2) u
        = some c2
    ∧ ((getOnlineUsers (setOnlineStatus (setOnlineStatus db u n1 c1) u n2 c2)).filter
        (fun r => r.userId == u)).length = 1
    ∧ getRecipientSocketId (registerOnlineUser (registerOnlineUser db u n1 c1) u n2 c2) u
        = some c2
    ∧ ((getOnlineUsers (registerOnlineUser (registerOnlineUser db u n1 c1) u n2 c2)).filter
        (fun r => r.userId == u)).length = 1 := by
  obtain ⟨nm1, h1⟩ := setOnlineStatus_filter db u n1 c1 h
  obtain ⟨nm2, h2⟩ := setOnlineStatus_filter (setOnlineStatus db u n1 c1) u n2 c2
    (by rw [h1]; simp)
  have hregon : ∀ (d : Db) (nm cs : String), (registerOnlineUser d u nm cs).online
      = (d.online.filter (fun r => !(r.userId == u))) ++ [⟨u, nm, cs⟩] :=
    fun d nm cs => rfl
  have hreg : (registerOnlineUser (registerOnlineUser db u n1 c1) u n2 c2).online.filter
      (fun r => r.userId == u) = [⟨u, n2, c2⟩] := by
    rw [hregon, List.filter_append, filter_not_self]
    simp
  refine ⟨?_, ?_, ?_, ?_⟩
  · unfold getRecipientSocketId
    rw [h2]
    rfl
  · rw [getOnlineUsers, h2]
    rfl
  · unfold getRecipientSocketId
    rw [hreg]
    rfl
  · rw [getOnlineUsers, hreg]
    rfl

/-- Witness for C3 at a concrete input: a user already online under
connection `c0` comes online under `c1` and then `c2`. -/
theorem presence_replace_by_userId_witness :
    getRecipientSocketId
        (setOnlineStatus (setOnlineStatus ⟨[], [], [], [], [⟨"u1", "alice", "c0"⟩], [], 0⟩
          "u1" "alice" "c1") "u1" "alice" "c2") "u1" = some "c2"
    ∧ ((getOnlineUsers (setOnlineStatus (setOnlineStatus
          ⟨[], [], [], [], [⟨"u1", "alice", "c0"⟩], [], 0⟩
          "u1" "alice" "c1") "u1" "alice" "c2")).filter
        (fun r => r.userId == "u1")).length = 1 := by
  have h := presence_replace_by_userId ⟨[], [], [], [], [⟨"u1", "alice", "c0"⟩], [], 0⟩
    "u1" "alice" "alice" "c1" "c2" (by decide)
  exact ⟨h.1, h.2.1⟩

/-! ### Claim C4: chat history symmetry -/

lemma savePrivateMessage_preserves_sorted (db : Db) (s r m : String)
    (hs : db.msgs.Pairwise (fun x y => x.createdAt ≤ y.createdAt))
    (hclock : ∀ mr ∈ db.msgs, mr.createdAt < db.clock) :
    (savePrivateMessage db s r m).msgs.Pairwise (fun x y => x.createdAt ≤ y.createdAt)
    ∧ ∀ mr ∈ (savePrivateMessage db s r m).msgs,
        mr.createdAt < (savePrivateMessage db s r m).clock := by
  constructor
  · show (db.msgs ++ [(⟨s, r, m, db.clock⟩ : MsgRow)]).Pairwise _
    rw [List.pairwise_append]
    refine ⟨hs, List.pairwise_singleton _ _, ?_⟩
    intro x hx y hy
    have : y = (⟨s, r, m, db.clock⟩ : MsgRow) := by simpa using hy
    rw [this]
    exact Nat.le_of_lt (hclock x hx)
  · intro mr hmr
    show mr.createdAt < db.clock + 1
    rcases List.mem_append.mp hmr with hmem | hmem
    · exact Nat.lt_succ_of_lt (hclock mr hmem)
    · have : mr = (⟨s, r, m, db.clock⟩ : MsgRow) := by simpa using hmem
      rw [this]
      exact Nat.lt_succ_self _

/-- C4: `getChatHistory` is symmetric in its two user arguments, returns
exactly the messages whose unordered sender/recipient pair is the given
pair, and (for a store whose rows are in ascending `created_at` order, as
produced by the append-only insert) the history is ascending by
`created_at`. -/
theorem getChatHistory_symmetric (db : Db) (a b : String)
    (hsorted : db.msgs.Pairwise (fun x y => x.createdAt ≤ y.createdAt)) :
    getChatHistory db a b = getChatHistory db b a
    ∧ (∀ mr : MsgRow, mr ∈ getChatHistory db a b ↔ mr ∈ db.msgs ∧
        ((mr.senderId = a ∧ mr.recipientId = b)
          ∨ (mr.senderId = b ∧ mr.recipientId = a)))
    ∧ (getChatHistory db a b).Pairwise (fun x y => x.createdAt ≤ y.createdAt) := by
  refine ⟨?_, ?_, ?_⟩
  · unfold getChatHistory
    apply List.filter_congr
    intro mr _
    exact Bool.or_comm _ _
  · intro mr
    simp [getChatHistory, List.mem_filter]
  · exact List.Pairwise.sublist (List.filter_sublist _) hsorted

/-- Witness for C4 at a concrete two-message store. -/
theorem getChatHistory_symmetric_witness :
    getChatHistory ⟨[], [], [], [], [], [⟨"a", "b", "m1", 0⟩, ⟨"b", "a", "m2", 1⟩], 2⟩ "a" "b"
      = getChatHistory ⟨[], [], [], [], [], [⟨"a", "b", "m1", 0⟩, ⟨"b", "a", "m2", 1⟩], 2⟩ "b" "a"
    ∧ (getChatHistory ⟨[], [], [], [], [], [⟨"a", "b", "m1", 0⟩, ⟨"b", "a", "m2", 1⟩], 2⟩
        "a" "b").Pairwise (fun x y => x.createdAt ≤ y.createdAt) := by
  have h := getChatHistory_symmetric
    ⟨[], [], [], [], [], [⟨"a", "b", "m1", 0⟩, ⟨"b", "a", "m2", 1⟩], 2⟩ "a" "b"
    (by decide)
  exact ⟨h.1, h.2.2⟩

/-! ### Claim C6: connection identity in the online-users payload -/

/-- State transformation rewriting every stored connection identity. -/
def rewriteSocketIds (db : Db) (g : String → String) : Db :=
  { db with online := db.online.map (fun r => { r with socketId := g r.socketId }) }

/-- C6 counterexample: the `part_001` revision's connection handler emits
the raw `getOnlineUsers` rows as the `onlineUsers` payload, and those rows
carry the `socketId`: the payload changes when only the connection identity
changes, and the emitted row contains the socket id `s1` verbatim — the
connection identity leaks into a broadcast payload. -/
theorem part001_onlineUsers_leaks_socketId :
    part001ConnectionOnlineEmit emptyDb "u1" "alice" "s1"
        ≠ part001ConnectionOnlineEmit emptyDb "u1" "alice" "s2"
    ∧ (part001ConnectionOnlineEmit emptyDb "u1" "alice" "s1").any
        (fun r => r.socketId == "s1") = true := by
  decide

/-- C6 amended: the `server.js` `broadcastOnlineUsers` payload projects the
presence rows to `(userId, username)` and is invariant under any rewriting
of the stored socket ids, so that broadcast path never leaks a connection
identity; the raw `part_001` connection emit is the exception. -/
theorem onlineUsersPayload_no_socketId (db : Db) (g : String → String) :
    onlineUsersPayload (rewriteSocketIds db g) = onlineUsersPayload db := by
  simp [onlineUsersPayload, rewriteSocketIds, getOnlineUsers, List.map_map]

/-! ### Claim C7: error containment in the live handlers -/

/-- C7 counterexample: in the `userOnline` handler with the second
persistence call (`getOnlineUsers` inside `broadcastOnlineUsers`) failing,
a persistence call raised and nothing was emitted, yet the presence table
and the session binding both changed (the `setOnlineStatus` upsert had
already been persisted before the failure). -/
theorem userOnline_error_changes_state_cex :
    (userOnlineH (failAt 1) emptyDb none "s1" "u1" "alice").2.2.any
        Action.isFailedCall = true
    ∧ (userOnlineH (failAt 1) emptyDb none "s1" "u1" "alice").2.2.all
        (fun a => !a.isEmit) = true
    ∧ (userOnlineH (failAt 1) emptyDb none "s1" "u1" "alice").1 ≠ emptyDb
    ∧ (userOnlineH (failAt 1) emptyDb none "s1" "u1" "alice").2.1 ≠ none := by
  decide

/-- C7 amended: every live-connection handler catches persistence errors
and emits nothing when any of its persistence calls fails, and if the
failing call is the first one — before any mutation was persisted — the
store and the session binding are left unchanged.  (A failure after a
successful mutation keeps the persisted mutation, as the counterexample
shows, but still suppresses every broadcast.) -/
theorem handlers_catch_and_suppress (f : Nat → Bool) (db : Db)
    (sess : Option String) (sid p u uname s r m : String) (now : Nat) :
    ((likePostH f db p u).2.any Action.isFailedCall = true →
        (likePostH f db p u).2.all (fun a => !a.isEmit) = true)
    ∧ (f 0 = true → (likePostH f db p u).1 = db)
    ∧ ((privateMessageH f db now s r m).2.any Action.isFailedCall = true →
        (privateMessageH f db now s r m).2.all (fun a => !a.isEmit) = true)
    ∧ (f 0 = true → (privateMessageH f db now s r m).1 = db)
    ∧ ((userOnlineH f db sess sid u uname).2.2.any Action.isFailedCall = true →
        (userOnlineH f db sess sid u uname).2.2.all (fun a => !a.isEmit) = true)
    ∧ (f 0 = true → (userOnlineH f db sess sid u uname).1 = db
        ∧ (userOnlineH f db sess sid u uname).2.1 = sess)
    ∧ ((userOfflineH f db sess u).2.2.any Action.isFailedCall = true →
        (userOfflineH f db sess u).2.2.all (fun a => !a.isEmit) = true)
    ∧ (f 0 = true → (userOfflineH f db sess u).1 = db
        ∧ (userOfflineH f db sess u).2.1 = sess)
    ∧ ((disconnectH f db sess sid).2.2.any Action.isFailedCall = true →
        (disconnectH f db sess sid).2.2.all (fun a => !a.isEmit) = true)
    ∧ (f 0 = true → (disconnectH f db sess sid).1 = db) := by
  refine ⟨?_, ?_, ?_, ?_, ?_, ?_, ?_, ?_, ?_, ?_⟩
  · cases hf0 : f 0 <;> cases hf1 : f 1 <;> cases hf2 : f 2 <;>
      simp [likePostH, hf0, hf1, hf2, Action.isFailedCall, Action.isEmit]
  · intro h0
    simp [likePostH, h0]
  · by_cases hv : (s == "" || r == "" || m == "") = true
    · simp [privateMessageH, hv]
    · have hv' := Bool.of_not_eq_true hv
      cases hf0 : f 0 <;> cases hf1 : f 1 <;>
        cases hrec : getRecipientSocketId (savePrivateMessage db s r m) r <;>
          simp [privateMessageH, hv', hf0, hf1, hrec, Action.isFailedCall, Action.isEmit]
  · intro h0
    by_cases hv : (s == "" || r == "" || m == "") = true
    · simp [privateMessageH, hv]
    · simp [privateMessageH, Bool.of_not_eq_true hv, h0]
  · by_cases hv : (u == "" || uname == "") = true
    · simp [userOnlineH, hv]
    · have hv' := Bool.of_not_eq_true hv
      cases hf0 : f 0 <;> cases hf1 : f 1 <;>
        simp [userOnlineH, hv', hf0, hf1, Action.isFailedCall, Action.isEmit]
  · intro h0
    by_cases hv : (u == "" || uname == "") = true
    · simp [userOnlineH, hv]
    · simp [userOnlineH, Bool.of_not_eq_true hv, h0]
  · by_cases hv : (u == "") = true
    · simp [userOfflineH, hv]
    · have hv' := Bool.of_not_eq_true hv
      cases hf0 : f 0 <;> cases hf1 : f 1 <;>
        simp [userOfflineH, hv', hf0, hf1, Action.isFailedCall, Action.isEmit]
  · intro h0
    by_cases hv : (u == "") = true
    · simp [userOfflineH, hv]
    · simp [userOfflineH, Bool.of_not_eq_true hv, h0]
  · cases sess with
    | none => simp [disconnectH]
    | some x =>
        cases hf0 : f 0 <;> cases hf1 : f 1 <;>
          simp [disconnectH, hf0, hf1, Action.isFailedCall, Action.isEmit]
  · intro h0
    cases sess with
    | none => simp [disconnectH]
    | some x => simp [disconnectH, h0]

/-- Witness for C7's amended theorem at concrete inputs: first-call
failures leave the store and session unchanged, and a late failure still
suppresses every emit. -/
theorem handlers_catch_and_suppress_witness :
    (likePostH (failAt 0) emptyDb "p1" "u1").1 = emptyDb
    ∧ (privateMessageH (failAt 0) emptyDb 0 "u1" "u2" "hi").1 = emptyDb
    ∧ (userOnlineH (failAt 0) emptyDb none "s1" "u1" "alice").1 = emptyDb
    ∧ (likePostH (failAt 2) emptyDb "p1" "u1").2.all (fun a => !a.isEmit) = true := by
  have h := handlers_catch_and_suppress (failAt 0) emptyDb none "s1" "p1" "u1" "alice"
    "u1" "u2" "hi" 0
  have h2 := handlers_catch_and_suppress (failAt 2) emptyDb none "s1" "p1" "u1" "alice"
    "u1" "u2" "hi" 0
  exact ⟨h.2.1 rfl, h.2.2.2.1 rfl, (h.2.2.2.2.2.1 rfl).1, h2.1 (by decide)⟩

/-! ### Claim C8: disconnect idempotence -/

/-- Demo store for the disconnect scenario: one user online under
connection `s1`. -/
def dbC8 : Db := ⟨[], [], [], [], [⟨"u1", "alice", "s1"⟩], [], 0⟩

/-- C8 counterexample: the first disconnect removes the presence entry, and
a second application of the disconnect handling for the same connectionId
does emit another `onlineUsers` broadcast (the handler never clears
`socket.userId` and broadcasts unconditionally after the no-op delete) —
refuting the claim that no second broadcast is emitted. -/
theorem disconnect_second_broadcast_cex :
    (disconnectH noFail dbC8 (some "u1") "s1").1.online = []
    ∧ (disconnectH noFail (disconnectH noFail dbC8 (some "u1") "s1").1
        (some "u1") "s1").2.2
      = [.dbCall "removeOnlineStatusBySocketId" true, .dbCall "getOnlineUsers" true,
         .emitAll (.onlineUsers [])] := by
  decide

/-- C8 amended: applying the disconnect handling twice for the same
connectionId raises no error and is idempotent on the store — the second
delete removes nothing, every entry for the connection being already gone —
but the second application emits one more `onlineUsers` broadcast whose
payload is the unchanged post-removal list (it does not contain the removed
entry). -/
theorem disconnect_idempotent_state (db : Db) (u sid : String) :
    (disconnectH noFail (disconnectH noFail db (some u) sid).1 (some u) sid).1
        = (disconnectH noFail db (some u) sid).1
    ∧ (disconnectH noFail db (some u) sid).1.online.all
        (fun r => !(r.socketId == sid)) = true
    ∧ (disconnectH noFail (disconnectH noFail db (some u) sid).1 (some u) sid).2.2
        = [.dbCall "removeOnlineStatusBySocketId" true, .dbCall "getOnlineUsers" true,
           .emitAll (.onlineUsers (onlineUsersPayload
             (disconnectH noFail db (some u) sid).1))] := by
  have hidem : removeOnlineStatusBySocketId (removeOnlineStatusBySocketId db sid) sid
      = removeOnlineStatusBySocketId db sid := by
    simp only [removeOnlineStatusBySocketId]
    rw [filter_of_filter_stronger _ _ _ (fun r hr => hr)]
  have h1 : (disconnectH noFail db (some u) sid).1 = removeOnlineStatusBySocketId db sid := by
    simp [disconnectH, noFail]
  refine ⟨?_, ?_, ?_⟩
  · rw [h1, show (disconnectH noFail (removeOnlineStatusBySocketId db sid) (some u) sid).1
        = removeOnlineStatusBySocketId (removeOnlineStatusBySocketId db sid) sid from
          by simp [disconnectH, noFail], hidem]
  · rw [h1]
    rw [List.all_eq_true]
    intro r hr
    exact (List.mem_filter.mp hr).2
  · rw [h1]
    simp [disconnectH, noFail, hidem]

/-! ### Claim C9: comment broadcast payload -/

/-- Demo store for the comment scenario: the author's current user record
carries `newname`/`newpic`. -/
def dbC9 : Db := ⟨[⟨"u1", "newname", "newpic"⟩], [], [], [], [], [], 0⟩

/-- C9 counterexample: with the author's user record reading
`newname`/`newpic`, a comment posted with the client-supplied (cached)
`oldname`/`oldpic` is broadcast with those stale values, while the
join-based fetch of the same comment resolves `newname`/`newpic` — the
broadcast does not carry the values resolved from the user record at the
moment of posting. -/
theorem comment_broadcast_stale_profile_cex :
    broadcastEvents (apiCommentH noFail dbC9 "c1" "p1" "u1" "hello"
        "oldname" "oldpic").2
      = [.commentUpdate "c1" "p1" "u1" "oldname" "hello" "oldpic" 0]
    ∧ (dbC9.users.find? (fun usr => usr.userId == "u1")).map (fun usr => usr.username)
        = some "newname"
    ∧ getCommentsByPostId (apiCommentH noFail dbC9 "c1" "p1" "u1" "hello"
        "oldname" "oldpic").1 "p1"
      = [⟨"c1", "p1", "u1", "hello", 0, "newname", "newpic"⟩]
    ∧ "oldname" ≠ "newname" := by
  decide

/-- C9 amended: the `/api/comment` route persists only ids and content and
broadcasts `commentUpdate` carrying exactly the `username` and
`profilePicUrl` supplied in the request body (a cached client copy); the
moment-of-posting resolution via a users join happens only on the fetch
path `getCommentsByPostId`, which returns the stored comment with the
author's current name and image. -/
theorem comment_broadcast_uses_request_copy (db : Db)
    (cid p u content uname pic : String)
    (hp : p ≠ "") (hu : u ≠ "") (hc : content ≠ "") :
    broadcastEvents (apiCommentH noFail db cid p u content uname pic).2
        = [.commentUpdate cid p u uname content pic db.clock]
    ∧ (∀ usr : UserRow, db.users.find? (fun x => x.userId == u) = some usr →
        (⟨cid, p, u, content, db.clock, usr.username, usr.profilePicUrl⟩ : CommentView)
          ∈ getCommentsByPostId (apiCommentH noFail db cid p u content uname pic).1 p) := by
  have hbp : (p == "") = false := by simp [hp]
  have hbu : (u == "") = false := by simp [hu]
  have hbc : (content == "") = false := by simp [hc]
  have hrun : apiCommentH noFail db cid p u content uname pic
      = (createComment db cid p u content,
         [.dbCall "createComment" true,
          .emitAll (.commentUpdate cid p u uname content pic db.clock)]) := by
    simp [apiCommentH, noFail, hbp, hbu, hbc]
  refine ⟨by rw [hrun]; rfl, ?_⟩
  intro usr husr
  rw [hrun]
  show _ ∈ getCommentsByPostId (createComment db cid p u content) p
  unfold getCommentsByPostId createComment
  apply List.mem_filterMap.mpr
  refine ⟨⟨cid, p, u, content, db.clock⟩, ?_, ?_⟩
  · apply List.mem_filter.mpr
    refine ⟨by simp, by simp⟩
  · show (db.users.find? (fun x => x.userId == u)).map _ = _
    rw [husr]
    rfl

/-- Witness for C9's amended theorem at a concrete input. -/
theorem comment_broadcast_uses_request_copy_witness :
    broadcastEvents (apiCommentH noFail dbC9 "c2" "p2" "u1" "yo"
        "cachedname" "cachedpic").2
      = [.commentUpdate "c2" "p2" "u1" "cachedname" "yo" "cachedpic" 0]
    ∧ (⟨"c2", "p2", "u1", "yo", 0, "newname", "newpic"⟩ : CommentView)
        ∈ getCommentsByPostId (apiCommentH noFail dbC9 "c2" "p2" "u1" "yo"
            "cachedname" "cachedpic").1 "p2" := by
  have h := comment_broadcast_uses_request_copy dbC9 "c2" "p2" "u1" "yo"
    "cachedname" "cachedpic" (by decide) (by decide) (by decide)
  exact ⟨h.1, h.2 ⟨"u1", "newname", "newpic"⟩ (by decide)⟩

/-! ### Claim C10: the feed cap -/

/-- C10: the `src/db.js` feed listing returns at most 20 rows, ordered
newest first, and everything it omits is no newer than anything it returns
(it is the 20 most recently created authored posts); the `part_002`
revision's `getAllPosts` applies no such cap — it returns one row per
authored post, so every authored post appears in it. -/
theorem getAllPosts_cap_twenty (db : Db) :
    (getAllPosts db).length ≤ 20
    ∧ (getAllPosts db).Pairwise postLater
    ∧ (∀ v ∈ getAllPosts db,
        ∀ w ∈ (List.insertionSort postLater (postsJoined db)).drop 20,
          w.createdAt ≤ v.createdAt)
    ∧ (getAllPostsP002 db).length = (postsJoinedP2 db).length
    ∧ (∀ pr ∈ db.posts, (∃ usr ∈ db.users, usr.userId = pr.userId) →
        ∃ v ∈ getAllPostsP002 db, v.postId = pr.id) := by
  have hsorted : (List.insertionSort postLater (postsJoined db)).Pairwise postLater :=
    List.sorted_insertionSort postLater (postsJoined db)
  refine ⟨List.length_take_le 20 _, ?_, ?_, List.length_insertionSort _ _, ?_⟩
  · exact List.Pairwise.sublist (List.take_sublist 20 _) hsorted
  · intro v hv w hw
    have hsplit := hsorted
    rw [← List.take_append_drop 20 (List.insertionSort postLater (postsJoined db)),
      List.pairwise_append] at hsplit
    exact hsplit.2.2 v hv w hw
  · intro pr hpr ⟨usr, husr, huid⟩
    have hfind : (db.users.find? (fun x => x.userId == pr.userId)).isSome = true := by
      rw [List.find?_isSome]
      exact ⟨usr, husr, beq_iff_eq.mpr huid⟩
    obtain ⟨usr', husr'⟩ := Option.isSome_iff_exists.mp hfind
    refine ⟨⟨pr.id, pr.userId, pr.username, pr.content, pr.mediaUrl, pr.createdAt,
      getLikeCount db pr.id, usr'.profilePicUrl⟩, ?_, rfl⟩
    rw [getAllPostsP002, List.mem_insertionSort]
    apply List.mem_filterMap.mpr
    exact ⟨pr, hpr, by rw [husr']; rfl⟩

/-- Demo store for the feed listing: two authored posts. -/
def dbC10 : Db := ⟨[⟨"u1", "n", "pic"⟩],
  [⟨"a", "u1", "n", "c", "", 5⟩, ⟨"b", "u1", "n", "c", "", 9⟩], [], [], [], [], 0⟩

/-- Witness for C10 at a concrete store: an authored post appears in the
uncapped listing. -/
theorem getAllPosts_cap_twenty_witness :
    ∃ v ∈ getAllPostsP002 dbC10, v.postId = "a" :=
  (getAllPosts_cap_twenty dbC10).2.2.2.2 ⟨"a", "u1", "n", "c", "", 5⟩ (by decide)
    ⟨⟨"u1", "n", "pic"⟩, by decide, rfl⟩

end RealWebApp
